import Mathlib

/-!
Shallow embedding of the EMSM server plugin (`plugins/server.py`) and of the
plugin base class (`emsm/base_plugin.py`).

The update orchestration of `MyServer.update` is modelled as a pure function
from the initial world list and three failure oracles to a run record that
carries the trace of external calls (send_command, stop, the server download,
start) together with the per-world stop and restart outcomes.  External
collaborators (WorldHandle, ServerBuild, the configuration store, the
interactive prompt) are consumed through their contracts, exactly as the
source consumes them:

* `world.stop(force)` either succeeds (the world goes offline) or raises
  `WorldStopFailed`; the oracle `stopFails` says which worlds raise.
* `server.update(reporthook)` either succeeds or raises
  `ServerUpdateFailure`; the flag `updateFails` says which.
* `world.start()` raises `WorldIsOnlineError` when the world is online,
  raises `WorldStartFailed` when the oracle `startFails` says so, and
  succeeds otherwise.

`BasePlugin` is modelled with an explicit attribute table for the object
because `data_dir` reads the attributes `_app` and `_name`, which
`__init__` never assigns (it assigns the name-mangled `_BasePlugin__app`
and `_BasePlugin__name`): an absent attribute is `none` and reading it
raises `AttributeError`.
-/

/-- A world handle as seen by the plugin: its name, the name of the server
build it is bound to (`w.server`), and its online status at invocation
time (`w.is_online()`). -/
structure World where
  name : String
  server : String
  online : Bool
deriving DecidableEq, Repr

/-- One external call made by `MyServer.update`. -/
inductive Event where
  | send_command (world : String) (cmd : String)
  | stop (world : String) (force : Bool)
  | server_update
  | start (world : String)
deriving DecidableEq, Repr

/-- The stop loop of `MyServer.update`: for each affected world in order,
`world.send_command("say " + msg)` then `world.stop(force)`.  The loop is
wrapped in `try ... except WorldStopFailed`, so the first failing stop ends
the loop.  Returns the events, each snapshot world paired with whether this
run actually stopped it, and whether every stop succeeded. -/
def stopPhase (force : Bool) (msg : String) (stopFails : String → Bool) :
    List World → List Event × List (World × Bool) × Bool
  | [] => ([], [], true)
  | w :: ws =>
    let evs := [Event.send_command w.name (String.append "say " msg),
                Event.stop w.name force]
    if stopFails w.name then
      (evs, (w, false) :: ws.map (fun v => (v, false)), false)
    else
      let rest := stopPhase force msg stopFails ws
      (evs ++ rest.1, (w, true) :: rest.2.1, rest.2.2)

/-- Outcome of one `world.start()` attempt in the restart loop. -/
inductive RestartOutcome where
  | started
  | alreadyOnline
  | startFailed
deriving DecidableEq, Repr

/-- The `finally` block of `MyServer.update`: for every world of the
snapshot, `world.start()` inside a `try`; `WorldIsOnlineError` is passed
over silently, `WorldStartFailed` is reported and the loop continues.
A snapshot world is online at restart time exactly when this run did not
stop it. -/
def restartPhase (startFails : String → Bool) :
    List (World × Bool) → List Event × List (String × RestartOutcome)
  | [] => ([], [])
  | (w, stopped) :: ws =>
    let outcome :=
      if !stopped then RestartOutcome.alreadyOnline
      else if startFails w.name then RestartOutcome.startFailed
      else RestartOutcome.started
    let rest := restartPhase startFails ws
    (Event.start w.name :: rest.1, (w.name, outcome) :: rest.2)

/-- The record produced by one run of `MyServer.update`. -/
structure RunResult where
  trace : List Event
  stop_results : List (World × Bool)
  stop_ok : Bool
  update_outcome : Option Bool
  restart_results : List (String × RestartOutcome)
deriving DecidableEq, Repr

/-- `MyServer.update(force_stop, stop_message)` from `plugins/server.py`:
snapshot the worlds bound to this server that are online, stop them (the
loop aborts on the first `WorldStopFailed`), download the server build in
the `else` branch (only reached when no stop raised), and restart in the
`finally` block. -/
def MyServer.update (server stop_message : String) (force_stop : Bool)
    (worlds : List World) (stopFails : String → Bool) (updateFails : Bool)
    (startFails : String → Bool) : RunResult :=
  let affected := worlds.filter (fun w => w.server == server && w.online)
  let sp := stopPhase force_stop stop_message stopFails affected
  let upd := if sp.2.2 then [Event.server_update] else []
  let rp := restartPhase startFails sp.2.1
  { trace := sp.1 ++ upd ++ rp.1
    stop_results := sp.2.1
    stop_ok := sp.2.2
    update_outcome := if sp.2.2 then some (!updateFails) else none
    restart_results := rp.2 }

/-- The parsed flags relevant to the update dispatch of `Server.run`:
`--update` and `--force-update` (a mutually exclusive argparse group). -/
structure Args where
  update : Bool
  force_update : Bool
deriving DecidableEq, Repr

/-- The update dispatch of `Server.run`: `--update` calls
`s.update(False, self.update_message)` and `--force-update` calls
`s.update(True, self.update_message)`. -/
def Server.run (args : Args) (server update_message : String)
    (worlds : List World) (stopFails : String → Bool) (updateFails : Bool)
    (startFails : String → Bool) : Option RunResult :=
  if args.update then
    some (MyServer.update server update_message false worlds
            stopFails updateFails startFails)
  else if args.force_update then
    some (MyServer.update server update_message true worlds
            stopFails updateFails startFails)
  else
    none

/-- The worlds whose start attempts appear in a trace, in order. -/
def startNames (t : List Event) : List String :=
  t.filterMap (fun e => match e with
    | Event.start n => some n
    | _ => none)

/-- The worlds whose stop attempts appear in a trace, in order. -/
def stopNames (t : List Event) : List String :=
  t.filterMap (fun e => match e with
    | Event.stop n _ => some n
    | _ => none)

/-- The force flags of the stop attempts of a trace, in order. -/
def stopForces (t : List Event) : List Bool :=
  t.filterMap (fun e => match e with
    | Event.stop _ f => some f
    | _ => none)

/-- The snapshot worlds whose stop is attempted: the snapshot up to and
including the first world whose stop raises. -/
def stopAttempts (stopFails : String → Bool) : List World → List World
  | [] => []
  | w :: ws =>
    if stopFails w.name then [w] else w :: stopAttempts stopFails ws

/-- The stop-phase events as the spec sentence describes them: for each
world in snapshot order, a send_command of the update message immediately
followed by that world stop, ending with the first failing stop. -/
def stopEvents (force : Bool) (msg : String) (stopFails : String → Bool) :
    List World → List Event
  | [] => []
  | w :: ws =>
    Event.send_command w.name (String.append "say " msg) ::
      Event.stop w.name force ::
        (if stopFails w.name then [] else stopEvents force msg stopFails ws)

/-- Written from the spec ordering sentence: stop events in snapshot order,
then exactly one download if and only if every stop succeeded, then the
start attempts in snapshot order. -/
def specUpdateTrace (server msg : String) (force : Bool)
    (worlds : List World) (stopFails : String → Bool) : List Event :=
  let affected := worlds.filter (fun w => w.server == server && w.online)
  stopEvents force msg stopFails affected
    ++ (if affected.all (fun w => !stopFails w.name)
        then [Event.server_update] else [])
    ++ affected.map (fun w => Event.start w.name)

/-- A Python exception value observed by the embedding. -/
inductive PyError where
  | attributeError
  | keyboardInterrupt
  | valueError
deriving DecidableEq, Repr

/-- The paths helper of the application: `app.paths.plugin_data_dir(name)`. -/
structure Paths where
  plugin_data_dir : String → String

/-- The slice of the EMSM application object that `data_dir` consumes. -/
structure App where
  paths : Paths

/-- The attribute table of a `BasePlugin` object.  `__init__` assigns the
name-mangled attributes; the plain `_app` and `_name` attributes read by
`data_dir` are never assigned anywhere, so reading a `none` field models an
`AttributeError`. -/
structure BasePluginObj where
  _BasePlugin__app : Option App
  _BasePlugin__name : Option String
  _app : Option App
  _name : Option String

/-- `BasePlugin.__init__(app, name)`: assigns `self.__app` and
`self.__name` (name-mangled), nothing else. -/
def BasePlugin.init (app : App) (name : String) : BasePluginObj :=
  { _BasePlugin__app := some app
    _BasePlugin__name := some name
    _app := none
    _name := none }

/-- `BasePlugin.data_dir(create=True)`: evaluates
`self._app.paths.plugin_data_dir(self._name)`, creates the directory when
`create` is true and it does not exist, and returns the path.  The file
system is the list of existing paths.  Reading an unassigned attribute
returns `AttributeError`. -/
def BasePlugin.data_dir (self : BasePluginObj) (fs : List String)
    (create : Bool) : Except PyError (String × List String) :=
  match self._app with
  | none => Except.error PyError.attributeError
  | some app =>
    match self._name with
    | none => Except.error PyError.attributeError
    | some nm =>
      let d := app.paths.plugin_data_dir nm
      if !(fs.contains d) && create then Except.ok (d, d :: fs)
      else Except.ok (d, fs)

/-- One configuration section: option name to string value. -/
abbrev ConfSection : Type := List (String × String)

/-- The main configuration store: section name to section, in order. -/
abbrev ConfStore : Type := List (String × ConfSection)

/-- Membership test of a section name, `name in main_conf`. -/
def hasSection (store : ConfStore) (name : String) : Bool :=
  store.any (fun s => s.1 == name)

/-- `main_conf.add_section(name)`: appends a fresh empty section. -/
def addSection (store : ConfStore) (name : String) : ConfStore :=
  store ++ [(name, [])]

/-- `main_conf[name]`: the first section stored under `name`. -/
def sectionOf (store : ConfStore) (name : String) : Option ConfSection :=
  (store.find? (fun s => s.1 == name)).map (fun s => s.2)

/-- `BasePlugin.conf()`: looks at `self.__app.conf.main()`, adds the
section named `self.__name` when absent, and returns that section.  The
name parameter is the value of the `__name` attribute, assigned
unconditionally by `__init__`; the store is threaded explicitly. -/
def BasePlugin.conf (name : String) (main_conf : ConfStore) :
    ConfStore × ConfSection :=
  let mc := if !(hasSection main_conf name) then addSection main_conf name
            else main_conf
  (mc, (sectionOf mc name).getD [])

/-- `main_conf.remove_section(name)`. -/
def remove_section (store : ConfStore) (name : String) : ConfStore :=
  store.filter (fun s => !(s.1 == name))

/-- Result of `BasePlugin.uninstall`: the file system and configuration
store it leaves behind, on normal return or at the point an exception
escapes. -/
inductive UResult where
  | ok (fs : List String) (conf_store : ConfStore)
  | err (e : PyError) (fs : List String) (conf_store : ConfStore)
deriving DecidableEq

/-- `BasePlugin.uninstall()` from `emsm/base_plugin.py`: ask for
confirmation and raise `KeyboardInterrupt` when declined; remove the
plugin module file when the registry resolves one (`plugin_module` is the
result of the external `get_module` call); on a separate confirmation
remove the data directory via `shutil.rmtree(self.data_dir(), True)` and
then evaluate `self.data_dir(create=False)` again for the log line; on a
third separate confirmation remove the configuration section. -/
def BasePlugin.uninstall (self : BasePluginObj)
    (confirm_plugin confirm_data confirm_conf : Bool)
    (plugin_module : Option String) (fs : List String)
    (conf_store : ConfStore) : UResult :=
  match self._BasePlugin__name with
  | none => UResult.err PyError.attributeError fs conf_store
  | some nm =>
    if !confirm_plugin then
      UResult.err PyError.keyboardInterrupt fs conf_store
    else
      let fs1 := match plugin_module with
        | some f => fs.filter (fun p => !(p == f))
        | none => fs
      let step : Except (PyError × List String) (List String) :=
        if confirm_data then
          match BasePlugin.data_dir self fs1 true with
          | Except.error e => Except.error (e, fs1)
          | Except.ok (d, fs2) =>
            let fs3 := fs2.filter (fun p => !(p == d))
            match BasePlugin.data_dir self fs3 false with
            | Except.error e => Except.error (e, fs3)
            | Except.ok _ => Except.ok fs3
        else Except.ok fs1
      match step with
      | Except.error (e, fsx) => UResult.err e fsx conf_store
      | Except.ok fsr =>
        if confirm_conf then UResult.ok fsr (remove_section conf_store nm)
        else UResult.ok fsr conf_store

/-- One externally visible step of `MyServer.uninstall`. -/
inductive ServerUEvent where
  | report_no_replacement
  | ask_uninstall
  | ask_replacement
  | server_uninstall (replacement : String)
  | report_server_online
deriving DecidableEq, Repr

/-- `avlb_server.pop(avlb_server.index(name))`: removes the first
occurrence; `none` models the `ValueError` of `index` when absent. -/
def removeFirst : List String → String → Option (List String)
  | [], _ => none
  | x :: xs, n =>
    if x == n then some xs
    else (removeFirst xs n).map (fun ys => x :: ys)

/-- `MyServer.uninstall` from `plugins/server.py`: compute the available
replacement servers; return after a report when none is left; otherwise
ask for confirmation (return when declined), ask for the replacement,
and call `self.server.uninstall(replacement)`, reporting
`ServerIsOnlineError` when the contract raises it. -/
def MyServer.uninstall (server_name : String) (server_names : List String)
    (confirm : Bool) (replacement : String) (server_is_online : Bool) :
    Except PyError (List ServerUEvent) :=
  match removeFirst server_names server_name with
  | none => Except.error PyError.valueError
  | some avlb =>
    if avlb.isEmpty then Except.ok [ServerUEvent.report_no_replacement]
    else if !confirm then Except.ok [ServerUEvent.ask_uninstall]
    else
      let evs := [ServerUEvent.ask_uninstall, ServerUEvent.ask_replacement,
                  ServerUEvent.server_uninstall replacement]
      Except.ok (if server_is_online
                 then evs ++ [ServerUEvent.report_server_online] else evs)

theorem stopPhase_events (force : Bool) (msg : String) (sf : String → Bool) :
    ∀ l : List World, (stopPhase force msg sf l).1 = stopEvents force msg sf l
  | [] => rfl
  | w :: ws => by
    cases h : sf w.name <;>
      simp [stopPhase, stopEvents, h, stopPhase_events force msg sf ws]

theorem stopPhase_ok (force : Bool) (msg : String) (sf : String → Bool) :
    ∀ l : List World,
      (stopPhase force msg sf l).2.2 = l.all (fun w => !sf w.name)
  | [] => rfl
  | w :: ws => by
    cases h : sf w.name <;>
      simp [stopPhase, h, stopPhase_ok force msg sf ws]

theorem stopPhase_worlds (force : Bool) (msg : String) (sf : String → Bool) :
    ∀ l : List World, (stopPhase force msg sf l).2.1.map Prod.fst = l
  | [] => rfl
  | w :: ws => by
    cases h : sf w.name <;>
      simp [stopPhase, h, stopPhase_worlds force msg sf ws, Function.comp_def]

theorem restartPhase_events (sf : String → Bool) :
    ∀ ps : List (World × Bool),
      (restartPhase sf ps).1 = ps.map (fun p => Event.start p.1.name)
  | [] => rfl
  | (w, b) :: ps => by
    simp [restartPhase, restartPhase_events sf ps]

theorem restartPhase_results (sf : String → Bool) :
    ∀ ps : List (World × Bool),
      (restartPhase sf ps).2 = ps.map (fun p =>
        (p.1.name,
          if !p.2 then RestartOutcome.alreadyOnline
          else if sf p.1.name then RestartOutcome.startFailed
          else RestartOutcome.started))
  | [] => rfl
  | (w, b) :: ps => by
    simp [restartPhase, restartPhase_results sf ps]

theorem startNames_append (s t : List Event) :
    startNames (s ++ t) = startNames s ++ startNames t := by
  simp [startNames]

theorem startNames_stopEvents (force : Bool) (msg : String)
    (sf : String → Bool) :
    ∀ l : List World, startNames (stopEvents force msg sf l) = []
  | [] => rfl
  | w :: ws => by
    have ih := startNames_stopEvents force msg sf ws
    cases h : sf w.name
    · simp only [stopEvents, h, Bool.false_eq_true, if_false, startNames,
        List.filterMap_cons] at ih ⊢
      exact ih
    · simp [stopEvents, h, startNames]

theorem startNames_start_map (ps : List (World × Bool)) :
    startNames (ps.map (fun p => Event.start p.1.name))
      = ps.map (fun p => p.1.name) := by
  induction ps with
  | nil => rfl
  | cons p ps ih =>
    simp only [startNames, List.map_cons, List.filterMap_cons] at ih ⊢
    rw [ih]

theorem server_update_not_mem_stopEvents (force : Bool) (msg : String)
    (sf : String → Bool) :
    ∀ l : List World, Event.server_update ∉ stopEvents force msg sf l
  | [] => by simp [stopEvents]
  | w :: ws => by
    cases h : sf w.name <;>
      simp [stopEvents, h, server_update_not_mem_stopEvents force msg sf ws]

theorem server_update_not_mem_start_map (ps : List (World × Bool)) :
    Event.server_update ∉ ps.map (fun p => Event.start p.1.name) := by
  simp

theorem stopNames_stopEvents (force : Bool) (msg : String)
    (sf : String → Bool) :
    ∀ l : List World,
      stopNames (stopEvents force msg sf l) = (stopAttempts sf l).map World.name
  | [] => rfl
  | w :: ws => by
    have ih := stopNames_stopEvents force msg sf ws
    cases h : sf w.name
    · simp only [stopEvents, stopAttempts, h, Bool.false_eq_true, if_false,
        stopNames, List.filterMap_cons, List.map_cons] at ih ⊢
      rw [ih]
    · simp [stopEvents, stopAttempts, h, stopNames]

theorem stopAttempts_mem (sf : String → Bool) :
    ∀ l : List World, ∀ w ∈ stopAttempts sf l, w ∈ l := by
  intro l
  induction l with
  | nil => simp [stopAttempts]
  | cons v vs ih =>
    intro w hw
    by_cases h : sf v.name = true
    · simp [stopAttempts, h] at hw
      simp [hw]
    · simp [stopAttempts, h] at hw
      rcases hw with hw | hw
      · simp [hw]
      · exact List.mem_cons_of_mem _ (ih w hw)

theorem stopNames_start_map (ps : List (World × Bool)) :
    stopNames (ps.map (fun p => Event.start p.1.name)) = [] := by
  induction ps with
  | nil => rfl
  | cons p ps ih =>
    simp only [stopNames, List.map_cons, List.filterMap_cons] at ih ⊢
    exact ih

theorem stopForces_stopEvents (force : Bool) (msg : String)
    (sf : String → Bool) :
    ∀ l : List World,
      (stopForces (stopEvents force msg sf l)).all (fun b => b == force) = true
  | [] => rfl
  | w :: ws => by
    have ih := stopForces_stopEvents force msg sf ws
    cases h : sf w.name
    · simp only [stopEvents, h, Bool.false_eq_true, if_false, stopForces,
        List.filterMap_cons, List.all_cons, beq_self_eq_true,
        Bool.true_and] at ih ⊢
      exact ih
    · simp [stopEvents, h, stopForces]

theorem stopForces_start_map (ps : List (World × Bool)) :
    stopForces (ps.map (fun p => Event.start p.1.name)) = [] := by
  induction ps with
  | nil => rfl
  | cons p ps ih =>
    simp only [stopForces, List.map_cons, List.filterMap_cons] at ih ⊢
    exact ih

theorem start_mem_of_startNames (t : List Event) (n : String)
    (h : n ∈ startNames t) : Event.start n ∈ t := by
  unfold startNames at h
  rw [List.mem_filterMap] at h
  obtain ⟨e, he, hmatch⟩ := h
  cases e <;> simp at hmatch
  simpa [hmatch] using he

theorem stopForces_append (s t : List Event) :
    stopForces (s ++ t) = stopForces s ++ stopForces t := by
  simp [stopForces]

theorem stopNames_append (s t : List Event) :
    stopNames (s ++ t) = stopNames s ++ stopNames t := by
  simp [stopNames]

theorem startNames_update_block (c : Bool) :
    startNames (if c then [Event.server_update] else []) = [] := by
  cases c <;> rfl

theorem stopNames_update_block (c : Bool) :
    stopNames (if c then [Event.server_update] else []) = [] := by
  cases c <;> rfl

theorem stopForces_update_block (c : Bool) :
    stopForces (if c then [Event.server_update] else []) = [] := by
  cases c <;> rfl

theorem map_start_name_fst (ps : List (World × Bool)) :
    ps.map (fun p => p.1.name) = (ps.map Prod.fst).map World.name := by
  simp [List.map_map, Function.comp_def]

theorem map_start_event_fst (ps : List (World × Bool)) :
    ps.map (fun p => Event.start p.1.name)
      = (ps.map Prod.fst).map (fun w => Event.start w.name) := by
  simp [List.map_map, Function.comp_def]

theorem update_startNames (server msg : String) (force : Bool)
    (worlds : List World) (sf : String → Bool) (uf : Bool)
    (stf : String → Bool) :
    startNames (MyServer.update server msg force worlds sf uf stf).trace
      = (worlds.filter (fun w => w.server == server && w.online)).map
          World.name := by
  simp only [MyServer.update]
  rw [startNames_append, startNames_append, stopPhase_events,
    startNames_stopEvents, startNames_update_block, restartPhase_events,
    startNames_start_map, map_start_name_fst, stopPhase_worlds]
  simp

theorem update_restart_results (server msg : String) (force : Bool)
    (worlds : List World) (sf : String → Bool) (uf : Bool)
    (stf : String → Bool) :
    (MyServer.update server msg force worlds sf uf stf).restart_results
      = (MyServer.update server msg force worlds sf uf stf).stop_results.map
          (fun p => (p.1.name,
            if !p.2 then RestartOutcome.alreadyOnline
            else if stf p.1.name then RestartOutcome.startFailed
            else RestartOutcome.started)) := by
  simp only [MyServer.update]
  exact restartPhase_results stf _

theorem update_stop_results_fst (server msg : String) (force : Bool)
    (worlds : List World) (sf : String → Bool) (uf : Bool)
    (stf : String → Bool) :
    (MyServer.update server msg force worlds sf uf stf).stop_results.map
        Prod.fst
      = worlds.filter (fun w => w.server == server && w.online) := by
  simp only [MyServer.update]
  exact stopPhase_worlds force msg sf _

theorem update_stopNames (server msg : String) (force : Bool)
    (worlds : List World) (sf : String → Bool) (uf : Bool)
    (stf : String → Bool) :
    stopNames (MyServer.update server msg force worlds sf uf stf).trace
      = (stopAttempts sf
          (worlds.filter (fun w => w.server == server && w.online))).map
            World.name := by
  simp only [MyServer.update]
  rw [stopNames_append, stopNames_append, stopPhase_events,
    stopNames_stopEvents, stopNames_update_block, restartPhase_events,
    stopNames_start_map]
  simp

theorem server_update_mem_update_trace (server msg : String) (force : Bool)
    (worlds : List World) (sf : String → Bool) (uf : Bool)
    (stf : String → Bool) :
    Event.server_update ∈
        (MyServer.update server msg force worlds sf uf stf).trace
      ↔ (worlds.filter (fun w => w.server == server && w.online)).all
          (fun w => !sf w.name) = true := by
  have h1 := server_update_not_mem_stopEvents force msg sf
    (worlds.filter (fun w => w.server == server && w.online))
  have h2 := server_update_not_mem_start_map
    ((stopPhase force msg sf
      (worlds.filter (fun w => w.server == server && w.online))).2.1)
  simp only [MyServer.update, List.mem_append]
  rw [stopPhase_events, stopPhase_ok, restartPhase_events]
  cases hok : (worlds.filter (fun w => w.server == server && w.online)).all
      (fun w => !sf w.name)
  · simp [h1, h2]
  · simp [h1, h2]

theorem stopForces_update_trace (server msg : String) (force : Bool)
    (worlds : List World) (sf : String → Bool) (uf : Bool)
    (stf : String → Bool) :
    (stopForces (MyServer.update server msg force worlds sf uf stf).trace).all
        (fun b => b == force) = true := by
  simp only [MyServer.update]
  rw [stopForces_append, stopForces_append, stopPhase_events,
    stopForces_update_block, restartPhase_events, stopForces_start_map]
  simp [List.all_append, stopForces_stopEvents]

theorem update_trace_eq_spec (server msg : String) (force : Bool)
    (worlds : List World) (sf : String → Bool) (uf : Bool)
    (stf : String → Bool) :
    (MyServer.update server msg force worlds sf uf stf).trace
      = specUpdateTrace server msg force worlds sf := by
  simp only [MyServer.update, specUpdateTrace]
  rw [stopPhase_events, stopPhase_ok, restartPhase_events,
    map_start_event_fst, stopPhase_worlds]

/-- C1: for every update run of a server build, if any affected world
fails to stop (its stop raises WorldStopFailed), the server build update
operation is never invoked: the download step is skipped for that run. -/
theorem update_skips_download_on_stop_failure
    (server msg : String) (force : Bool) (worlds : List World)
    (stopFails : String → Bool) (updateFails : Bool)
    (startFails : String → Bool)
    (h : worlds.any
        (fun w => (w.server == server && w.online) && stopFails w.name)
        = true) :
    Event.server_update ∉
      (MyServer.update server msg force worlds stopFails updateFails
        startFails).trace := by
  rw [server_update_mem_update_trace]
  intro hall
  rw [List.all_eq_true] at hall
  rw [List.any_eq_true] at h
  obtain ⟨w, hw, hp⟩ := h
  simp only [Bool.and_eq_true] at hp
  have hmem : w ∈ worlds.filter (fun w => w.server == server && w.online) :=
    List.mem_filter.mpr ⟨hw, by simp [hp.1.1, hp.1.2]⟩
  have := hall w hmem
  simp [hp.2] at this

/-- Witness for C1: a single affected online world whose stop fails. -/
theorem update_skips_download_on_stop_failure_witness :
    ([⟨"A", "S", true⟩] : List World).any
        (fun w => (w.server == "S" && w.online) && (fun _ => true) w.name)
        = true
    ∧ Event.server_update ∉
        (MyServer.update "S" "msg" true [⟨"A", "S", true⟩]
          (fun _ => true) false (fun _ => false)).trace :=
  ⟨by decide,
    update_skips_download_on_stop_failure "S" "msg" true
      [⟨"A", "S", true⟩] (fun _ => true) false (fun _ => false) (by decide)⟩

/-- C2 counterexample: with one affected world whose stop fails, the run
stops no world at all, yet a start is still attempted for that world in
the restart phase — the code does not exclude unstopped worlds from the
restart attempts. -/
theorem restart_attempted_for_unstopped_world :
    (MyServer.update "S" "msg" true [⟨"A", "S", true⟩]
        (fun _ => true) false (fun _ => false)).stop_results
      = [(⟨"A", "S", true⟩, false)]
    ∧ Event.start "A" ∈
        (MyServer.update "S" "msg" true [⟨"A", "S", true⟩]
          (fun _ => true) false (fun _ => false)).trace := by
  decide

/-- C2 (amended): in the restart phase a start is attempted for every
world of the original snapshot, including the worlds this run did not
stop; for an unstopped (hence still online) world the attempt raises
WorldIsOnlineError, which is silently swallowed, so only worlds actually
stopped by the run can be effectively restarted or reported as failed. -/
theorem restart_attempts_cover_snapshot
    (server msg : String) (force : Bool) (worlds : List World)
    (stopFails : String → Bool) (updateFails : Bool)
    (startFails : String → Bool) :
    startNames (MyServer.update server msg force worlds stopFails
        updateFails startFails).trace
      = (worlds.filter (fun w => w.server == server && w.online)).map
          World.name
    ∧ (MyServer.update server msg force worlds stopFails updateFails
        startFails).restart_results
      = (MyServer.update server msg force worlds stopFails updateFails
          startFails).stop_results.map
          (fun p => (p.1.name,
            if !p.2 then RestartOutcome.alreadyOnline
            else if startFails p.1.name then RestartOutcome.startFailed
            else RestartOutcome.started)) :=
  ⟨update_startNames server msg force worlds stopFails updateFails
      startFails,
    update_restart_results server msg force worlds stopFails updateFails
      startFails⟩

/-- C3: when every affected world stops successfully, a start is attempted
for every affected world in the restart phase, whatever the update outcome
and whatever start failures other worlds suffer. -/
theorem start_attempted_for_all_affected
    (server msg : String) (force : Bool) (worlds : List World)
    (stopFails : String → Bool) (updateFails : Bool)
    (startFails : String → Bool)
    (hstops : (worlds.filter (fun w => w.server == server && w.online)).all
        (fun w => !stopFails w.name) = true)
    (w : World) (hw : w ∈ worlds)
    (hpred : (w.server == server && w.online) = true) :
    Event.start w.name ∈
      (MyServer.update server msg force worlds stopFails updateFails
        startFails).trace := by
  apply start_mem_of_startNames
  rw [update_startNames]
  exact List.mem_map_of_mem _ (List.mem_filter.mpr ⟨hw, hpred⟩)

/-- Witness for C3: both worlds stop, the download fails, world A fails to
restart — a start is still attempted for world B. -/
theorem start_attempted_for_all_affected_witness :
    (([⟨"A", "S", true⟩, ⟨"B", "S", true⟩] : List World).filter
        (fun w => w.server == "S" && w.online)).all
        (fun w => !(fun _ => false) w.name) = true
    ∧ (⟨"B", "S", true⟩ : World) ∈
        ([⟨"A", "S", true⟩, ⟨"B", "S", true⟩] : List World)
    ∧ Event.start "B" ∈
        (MyServer.update "S" "msg" false [⟨"A", "S", true⟩, ⟨"B", "S", true⟩]
          (fun _ => false) true (fun n => n == "A")).trace :=
  ⟨by decide, by decide,
    start_attempted_for_all_affected "S" "msg" false
      [⟨"A", "S", true⟩, ⟨"B", "S", true⟩] (fun _ => false) true
      (fun n => n == "A") (by decide) ⟨"B", "S", true⟩ (by decide)
      (by decide)⟩

/-- C4: the set of affected worlds is the snapshot of the initial world
list under the predicate bound-to-this-server-and-online; exactly that
fixed snapshot receives the restart attempts, the stop bookkeeping ranges
over exactly that snapshot, and every stop attempt targets a member of
it — the run itself never expands or shrinks the set. -/
theorem affected_worlds_snapshot
    (server msg : String) (force : Bool) (worlds : List World)
    (stopFails : String → Bool) (updateFails : Bool)
    (startFails : String → Bool) :
    (MyServer.update server msg force worlds stopFails updateFails
        startFails).stop_results.map Prod.fst
      = worlds.filter (fun w => w.server == server && w.online)
    ∧ startNames (MyServer.update server msg force worlds stopFails
        updateFails startFails).trace
      = (worlds.filter (fun w => w.server == server && w.online)).map
          World.name
    ∧ (stopNames (MyServer.update server msg force worlds stopFails
        updateFails startFails).trace).all
        (fun n => ((worlds.filter
          (fun w => w.server == server && w.online)).map
            World.name).contains n) = true := by
  refine ⟨update_stop_results_fst server msg force worlds stopFails
      updateFails startFails,
    update_startNames server msg force worlds stopFails updateFails
      startFails, ?_⟩
  rw [update_stopNames, List.all_eq_true]
  intro n hn
  rw [List.mem_map] at hn
  obtain ⟨w, hw, rfl⟩ := hn
  have hmem := stopAttempts_mem stopFails
    (worlds.filter (fun w => w.server == server && w.online)) w hw
  simpa using List.mem_map_of_mem World.name hmem

/-- C6: a restart attempt on a world that is still online (because this
run did not stop it) is treated as success: its recorded outcome is
already-online, never a failure, and the restart loop still processes
every snapshot world. -/
theorem restart_of_online_world_is_success
    (server msg : String) (force : Bool) (worlds : List World)
    (stopFails : String → Bool) (updateFails : Bool)
    (startFails : String → Bool) (w : World)
    (h : (w, false) ∈ (MyServer.update server msg force worlds stopFails
        updateFails startFails).stop_results) :
    (w.name, RestartOutcome.alreadyOnline) ∈
        (MyServer.update server msg force worlds stopFails updateFails
          startFails).restart_results
    ∧ (MyServer.update server msg force worlds stopFails updateFails
        startFails).restart_results.length
      = (MyServer.update server msg force worlds stopFails updateFails
          startFails).stop_results.length := by
  constructor
  · rw [update_restart_results]
    have := List.mem_map_of_mem
      (fun p : World × Bool => (p.1.name,
        if !p.2 then RestartOutcome.alreadyOnline
        else if startFails p.1.name then RestartOutcome.startFailed
        else RestartOutcome.started)) h
    simpa using this
  · rw [update_restart_results]
    simp

/-- Witness for C6: world A fails to stop, its start attempt is swallowed
as already-online and the loop still covers the whole snapshot. -/
theorem restart_of_online_world_is_success_witness :
    ((⟨"A", "S", true⟩ : World), false) ∈
        (MyServer.update "S" "msg" true [⟨"A", "S", true⟩]
          (fun _ => true) false (fun _ => true)).stop_results
    ∧ (("A", RestartOutcome.alreadyOnline) ∈
        (MyServer.update "S" "msg" true [⟨"A", "S", true⟩]
          (fun _ => true) false (fun _ => true)).restart_results
      ∧ (MyServer.update "S" "msg" true [⟨"A", "S", true⟩]
          (fun _ => true) false (fun _ => true)).restart_results.length
        = (MyServer.update "S" "msg" true [⟨"A", "S", true⟩]
            (fun _ => true) false (fun _ => true)).stop_results.length) :=
  ⟨by decide,
    restart_of_online_world_is_success "S" "msg" true [⟨"A", "S", true⟩]
      (fun _ => true) false (fun _ => true) ⟨"A", "S", true⟩ (by decide)⟩

/-- C5: the trace of an update run is exactly the spec-ordered trace —
per-world send_command immediately followed by stop, in snapshot order up
to the first failure, then exactly one server download if and only if all
stops succeeded, then the start attempts — and the dispatch of Server.run
passes force equal to the force-update flag to every stop. -/
theorem update_phase_order
    (server msg : String) (force : Bool) (worlds : List World)
    (stopFails : String → Bool) (updateFails : Bool)
    (startFails : String → Bool) (args : Args)
    (h : (args.update = true ∧ args.force_update = false)
       ∨ (args.update = false ∧ args.force_update = true)) :
    (MyServer.update server msg force worlds stopFails updateFails
        startFails).trace
      = specUpdateTrace server msg force worlds stopFails
    ∧ ∃ R, Server.run args server msg worlds stopFails updateFails
          startFails = some R
        ∧ (stopForces R.trace).all (fun b => b == args.force_update)
            = true := by
  refine ⟨update_trace_eq_spec server msg force worlds stopFails
    updateFails startFails, ?_⟩
  rcases h with ⟨hu, hf⟩ | ⟨hu, hf⟩
  · refine ⟨MyServer.update server msg false worlds stopFails updateFails
        startFails, by simp [Server.run, hu], ?_⟩
    rw [hf]
    exact stopForces_update_trace server msg false worlds stopFails
      updateFails startFails
  · refine ⟨MyServer.update server msg true worlds stopFails updateFails
        startFails, by simp [Server.run, hu, hf], ?_⟩
    rw [hf]
    exact stopForces_update_trace server msg true worlds stopFails
      updateFails startFails

/-- Witness for C5: a force-update dispatch over one affected world. -/
theorem update_phase_order_witness :
    (((⟨false, true⟩ : Args).update = true
        ∧ (⟨false, true⟩ : Args).force_update = false)
      ∨ ((⟨false, true⟩ : Args).update = false
        ∧ (⟨false, true⟩ : Args).force_update = true))
    ∧ ((MyServer.update "S" "msg" true [⟨"A", "S", true⟩]
          (fun _ => false) false (fun _ => false)).trace
        = specUpdateTrace "S" "msg" true [⟨"A", "S", true⟩] (fun _ => false)
      ∧ ∃ R, Server.run ⟨false, true⟩ "S" "msg" [⟨"A", "S", true⟩]
            (fun _ => false) false (fun _ => false) = some R
          ∧ (stopForces R.trace).all
              (fun b => b == (⟨false, true⟩ : Args).force_update) = true) :=
  ⟨by decide,
    update_phase_order "S" "msg" true [⟨"A", "S", true⟩] (fun _ => false)
      false (fun _ => false) ⟨false, true⟩ (by decide)⟩

theorem hasSection_addSection (store : ConfStore) (n : String) :
    hasSection (addSection store n) n = true := by
  simp [hasSection, addSection]

theorem sectionOf_isSome (n : String) :
    ∀ store : ConfStore,
      hasSection store n = true → (sectionOf store n).isSome = true
  | [], h => by simp [hasSection] at h
  | s :: ss, h => by
    cases hs : (s.1 == n)
    · have h2 : hasSection ss n = true := by
        simpa [hasSection, hs] using h
      have ih := sectionOf_isSome n ss h2
      simpa [sectionOf, List.find?_cons, hs] using ih
    · simp [sectionOf, List.find?_cons, hs]

/-- A concrete application object for evaluating the base plugin. -/
def app0 : App := ⟨⟨fun n => String.append "plugins-data/" n⟩⟩

/-- C7: evaluation of `BasePlugin.uninstall` on an initialised plugin.
Declining the initial confirmation raises the cancellation signal
(`KeyboardInterrupt`, the signal the spec models as AbortedError) with the
module file, data directory and configuration all untouched.  Confirming
the uninstall and then the data-directory removal, however, raises
`AttributeError` out of `self.data_dir()` (which reads the never-assigned
`self._app`): the data directory is not removed and the configuration
question is never reached. -/
theorem uninstall_confirm_gating_bug :
    BasePlugin.uninstall (BasePlugin.init app0 "server") false true true
        (some "plugins/server.py")
        ["plugins/server.py", "plugins-data/server"]
        [("server", [("update_message", "msg")])]
      = UResult.err PyError.keyboardInterrupt
          ["plugins/server.py", "plugins-data/server"]
          [("server", [("update_message", "msg")])]
    ∧ BasePlugin.uninstall (BasePlugin.init app0 "server") true true true
        (some "plugins/server.py")
        ["plugins/server.py", "plugins-data/server"]
        [("server", [("update_message", "msg")])]
      = UResult.err PyError.attributeError ["plugins-data/server"]
          [("server", [("update_message", "msg")])] :=
  ⟨rfl, rfl⟩

/-- C8: every call of `BasePlugin.data_dir` on a plugin object produced by
`BasePlugin.__init__` raises `AttributeError`, for either value of
`create`, because the method reads the attributes `_app` and `_name`
that `__init__` never assigns; the claimed path is never returned. -/
theorem data_dir_raises_attribute_error (app : App) (name : String)
    (fs : List String) (create : Bool) :
    BasePlugin.data_dir (BasePlugin.init app name) fs create
      = Except.error PyError.attributeError := rfl

theorem conf_of_hasSection (name : String) (store : ConfStore)
    (h : hasSection store name = true) :
    BasePlugin.conf name store = (store, (sectionOf store name).getD []) := by
  simp [BasePlugin.conf, h]

/-- C9: `conf()` is idempotent lazy creation: after one call the section
named after the plugin exists and is the returned section, and a second
call returns the identical store and section, so calling twice leaves the
configuration store exactly as calling once. -/
theorem conf_idempotent (name : String) (store : ConfStore) :
    BasePlugin.conf name (BasePlugin.conf name store).1
        = BasePlugin.conf name store
    ∧ hasSection (BasePlugin.conf name store).1 name = true
    ∧ sectionOf (BasePlugin.conf name store).1 name
        = some (BasePlugin.conf name store).2 := by
  have hsec : hasSection (BasePlugin.conf name store).1 name = true := by
    by_cases h : hasSection store name = true
    · simp [BasePlugin.conf, h]
    · simp only [Bool.not_eq_true] at h
      simp [BasePlugin.conf, h, hasSection_addSection]
  have hsome := sectionOf_isSome name (BasePlugin.conf name store).1 hsec
  obtain ⟨sec, hs⟩ := Option.isSome_iff_exists.mp hsome
  have h2 : (BasePlugin.conf name store).2 = sec := by
    have hd : (BasePlugin.conf name store).2
        = (sectionOf (BasePlugin.conf name store).1 name).getD [] := rfl
    rw [hd, hs]
    rfl
  refine ⟨?_, hsec, ?_⟩
  · rw [conf_of_hasSection name (BasePlugin.conf name store).1 hsec]
    exact rfl
  · rw [h2]
    exact hs

/-- C10: when the target server build is the only registered build,
`MyServer.uninstall` returns normally after only reporting that no
replacement exists: the user is never asked anything and the server build
uninstall contract is never invoked. -/
theorem server_uninstall_sole_build_noop (server_name replacement : String)
    (confirm server_is_online : Bool) :
    MyServer.uninstall server_name [server_name] confirm replacement
        server_is_online
      = Except.ok [ServerUEvent.report_no_replacement] := by
  simp [MyServer.uninstall, removeFirst]
